import Mathlib

/-!
# ExternalEditTextInputs

A shallow embedding of `Source/ExternalEditTextInputs/Private/ExternalEditTextInputs.cpp`
and of the settings object of `ExternalEditTextInputsSettings.h`.

The plugin is glue over engine services (strings, files, Slate widgets, processes, the
task graph).  The engine is not part of the repository; each engine service used by the
plugin is given a small explicit model below, and the plugin's own functions are
translated statement by statement on top of these models, as functions on an explicit
`World` state.
-/

namespace ExternalEditTextInputs

/-! ## Engine strings -/

/-- An engine string is a sequence of characters. -/
abbrev FString := List Char

/-- The opening brace, the character that starts a placeholder. -/
def OpenBrace : Char := '\x7b'

/-- The closing brace. -/
def CloseBrace : Char := '\x7d'

/-- The escape character of the engine's string formatter (the grave accent). -/
def EscapeChar : Char := '\x60'

/-- The double quote character. -/
def Quote : Char := '\x22'

/-- Modelled from the spec: `FChar::IsWhitespace` belongs to the engine.  The spec speaks
of "leading/trailing whitespace"; the model takes the white-space characters of the C
locale (space, tab, line feed, vertical tab, form feed, carriage return). -/
def IsWhitespace (c : Char) : Bool :=
  c = ' ' || c = '\t' || c = '\n' || c = '\x0b' || c = '\x0c' || c = '\r'

/-- Modelled from the spec: `FChar::IsDigit` belongs to the engine; decimal digits. -/
def IsDigit (c : Char) : Bool :=
  decide ('0' ≤ c) && decide (c ≤ '9')

/-- Wrap an integer into the range of `int32`. -/
def WrapInt32 (x : Int) : Int :=
  (x + 2 ^ 31) % 2 ^ 32 - 2 ^ 31

/-- Modelled from the spec: `FString::TrimEndInline` belongs to the engine; it removes the
longest run of white space at the end of the string. -/
def TrimEnd (s : FString) : FString :=
  (s.reverse.dropWhile IsWhitespace).reverse

/-- Modelled from the spec: `FString::TrimStartInline` belongs to the engine; it removes
the longest run of white space at the start of the string. -/
def TrimStart (s : FString) : FString :=
  s.dropWhile IsWhitespace

/-- Modelled from the spec: `FString::TrimStartAndEndInline` belongs to the engine ("trimmed
of leading/trailing whitespace"); it trims the end, then the start. -/
def TrimStartAndEnd (s : FString) : FString :=
  TrimStart (TrimEnd s)

/-- The spec's wording of trimming, as a relation: `r` is `s` with its leading and trailing
white space removed when `s` is `r` between two runs of white space and `r` neither
starts nor ends with a white-space character. -/
def IsTrimmedFormOf (r s : FString) : Prop :=
  (∃ lead trail : FString,
      s = lead ++ r ++ trail ∧
      (∀ c ∈ lead, IsWhitespace c = true) ∧ (∀ c ∈ trail, IsWhitespace c = true)) ∧
  (∀ c ∈ r.head?, IsWhitespace c = false) ∧
  (∀ c ∈ r.getLast?, IsWhitespace c = false)

/-! ## The engine's string formatter (`FString::Format` with ordered arguments) -/

/-- Modelled from the spec: the tokens into which the engine's formatter splits a format
string. -/
inductive FormatToken where
  /-- A run of literal text. -/
  | StringLiteral (Text : FString)
  /-- An escaped character: the escape character followed by a brace or by itself. -/
  | EscapedCharacter (Character : Char)
  /-- A placeholder holding a decimal index, together with the text of the whole
  placeholder. -/
  | IndexSpecifier (Index : Int) (EntireToken : FString)
  deriving DecidableEq

/-- Modelled from the spec: the value of the digits of a placeholder, accumulated by the
engine's formatter in an `int32`. -/
def ParseDigits (digits : FString) : Int :=
  digits.foldl (fun acc c => WrapInt32 (WrapInt32 (acc * 10) + ((c.toNat : Int) - 48))) 0

/-- Modelled from the spec: the formatter's index placeholder.  An opening brace, optional
white space, one or more digits, optional white space, a closing brace.  The result is the
token and the rest of the input. -/
def ParseIndex (s : FString) : Option (FormatToken × FString) :=
  match s with
  | [] => none
  | c :: rest =>
    if c = OpenBrace then
      let afterSpace := rest.dropWhile IsWhitespace
      let digits := afterSpace.takeWhile IsDigit
      let afterDigits := (afterSpace.dropWhile IsDigit).dropWhile IsWhitespace
      if digits = [] then none
      else
        match afterDigits with
        | [] => none
        | d :: remaining =>
          if d = CloseBrace then
            some (.IndexSpecifier (ParseDigits digits)
                    (s.take (s.length - remaining.length)), remaining)
          else none
    else none

/-- Modelled from the spec: the formatter's escape sequence: the escape character followed
by an opening brace or by the escape character. -/
def ParseEscapedChar (s : FString) : Option (FormatToken × FString) :=
  match s with
  | e :: c :: rest =>
    if e = EscapeChar ∧ (c = OpenBrace ∨ c = EscapeChar) then
      some (.EscapedCharacter c, rest)
    else none
  | _ => none

/-- A character that ends a run of literal text (when it is not the first one). -/
def IsLiteralStop (c : Char) : Bool :=
  c = OpenBrace || c = EscapeChar

/-- Modelled from the spec: the formatter's literal text: everything up to the next opening
brace or escape character; a leading opening brace is part of the literal, a leading
escape character is not. -/
def ParseLiteral (s : FString) : Option (FormatToken × FString) :=
  match s with
  | [] => none
  | c :: rest =>
    if c = EscapeChar then none
    else
      some (.StringLiteral (c :: rest.takeWhile (fun x => !IsLiteralStop x)),
            rest.dropWhile (fun x => !IsLiteralStop x))

/-- Modelled from the spec: one step of the formatter's lexer: the token definitions are
tried in order, first come first served.  `none` is the lexer's "unrecognized token"
error. -/
def ConsumeToken (s : FString) : Option (FormatToken × FString) :=
  match ParseIndex s with
  | some r => some r
  | none =>
    match ParseEscapedChar s with
    | some r => some r
    | none => ParseLiteral s

/-- The outcome of lexing with a bound on the number of tokens. -/
inductive LexResult where
  | Tokens (Tokens : List FormatToken)
  | Error
  | OutOfFuel
  deriving DecidableEq

/-- Put a token in front of a lexing result. -/
def LexResult.Cons (t : FormatToken) : LexResult → LexResult
  | .Tokens ts => .Tokens (t :: ts)
  | .Error => .Error
  | .OutOfFuel => .OutOfFuel

/-- Modelled from the spec: the loop of the formatter's lexer: consume tokens until the
input is empty. -/
def LexAux : Nat → FString → LexResult
  | _, [] => .Tokens []
  | 0, _ :: _ => .OutOfFuel
  | fuel + 1, c :: cs =>
    match ConsumeToken (c :: cs) with
    | none => .Error
    | some (t, rest) => (LexAux fuel rest).Cons t

/-- Lex a format string.  Every token holds at least one character, so the length of the
input bounds the number of tokens (see `Lex_ne_OutOfFuel`). -/
def Lex (s : FString) : LexResult :=
  LexAux s.length s

/-- Modelled from the spec: the text a token contributes to the formatted string. -/
def AppendToken (Args : List FString) (Formatted : FString) : FormatToken → FString
  | .StringLiteral Text => Formatted ++ Text
  | .EscapedCharacter Character => Formatted ++ [Character]
  | .IndexSpecifier Index EntireToken =>
    if 0 ≤ Index ∧ Index.toNat < Args.length then
      Formatted ++ Args.getD Index.toNat []
    else
      Formatted ++ EntireToken

/-- Modelled from the spec: `FString::Format(Format, {Args...})` belongs to the engine.  The
settings documentation says that the placeholder "will be expended to full Filepath"; the
model follows the engine's formatter for ordered arguments (not strict): a format string
that does not lex, or has no token, is returned unchanged; otherwise literals are
copied, escaped characters are unescaped, and a placeholder with a valid index is
replaced by the argument (verbatim, it is not formatted again) while one with an invalid
index is copied. -/
def Format (InExpression : FString) (Args : List FString) : FString :=
  match Lex InExpression with
  | .Tokens (t :: ts) => (t :: ts).foldl (AppendToken Args) []
  | _ => InExpression

/-- The placeholder for the first argument. -/
def Placeholder : FString := [OpenBrace, '0', CloseBrace]

/-- The literal token of a run of text, none when the run is empty. -/
def LiteralTokens (A : FString) : List FormatToken :=
  if A = [] then [] else [.StringLiteral A]

/-- Text without opening brace and without escape character. -/
def IsPlain (A : FString) : Prop :=
  ∀ c ∈ A, IsLiteralStop c = false

instance (A : FString) : Decidable (IsPlain A) := by
  unfold IsPlain
  infer_instance

/-! ## Engine names, paths, files, widgets, notifications -/

/-- Modelled from the spec: the engine's `FName`, the "type tag exposed by the UI framework".
Engine names compare without regard to case. -/
structure FName where
  Text : FString
  deriving DecidableEq

/-- The comparison `Type == "..."` of a name with a string literal. -/
def FName.Equals (Name : FName) (Literal : FString) : Bool :=
  Name.Text.map Char.toLower == Literal.map Char.toLower

/-- Modelled from the spec: one step of the engine's `FPaths::Combine`: the two parts are
joined by a slash unless the left part is empty or already ends with a separator, or the
right part starts with a slash. -/
def PathAppend (Path Part : FString) : FString :=
  match Path.getLast?, Part.head? with
  | none, _ => Part
  | some _, none => Path
  | some l, some h =>
    if l = '/' ∨ l = '\\' ∨ h = '/' then Path ++ Part else Path ++ '/' :: Part

/-- Modelled from the spec: the engine's `FPaths::Combine` of three parts. -/
def Combine (A B C : FString) : FString :=
  PathAppend (PathAppend A B) C

/-- Modelled from the spec: what the file system holds at a path.  The spec has the read
fail "if the file cannot be opened/read": a file is either `Text`, which
`FFileHelper::LoadFileToString` loads, or `Unreadable`, a file that exists but cannot be
opened or read. -/
inductive FFile where
  | Text (Contents : FString)
  | Unreadable
  deriving DecidableEq

/-- The file system: what each path holds, if anything. -/
abbrev FileSystem := FString → Option FFile

/-- The three widget classes `OpenExternalEditorForWidget` is instantiated with. -/
inductive WidgetType where
  | SMultiLineEditableTextBox
  | SMultiLineEditableText
  | SEditableText
  deriving DecidableEq

/-- Modelled from the spec: a Slate widget: the "type tag exposed by the UI framework" and,
for a text widget, its text. -/
structure SWidget where
  TypeTag : FName
  Text : FString
  deriving DecidableEq

/-- Widgets are referred to by identity (the shared pointer the plugin holds). -/
abbrev WidgetId := Nat

/-- The states of `SNotificationItem::ECompletionState`. -/
inductive ECompletionState where
  | CS_None
  | CS_Pending
  | CS_Success
  | CS_Fail
  deriving DecidableEq

/-- A notification as shown by `ShowNotification`: text, expire duration in seconds and
completion state. -/
structure FNotificationInfo where
  Text : FString
  ExpireDuration : Nat
  CompletionState : ECompletionState
  deriving DecidableEq

/-- The closure `OnCompleted` built in `OpenExternalEditorForWidget`, with its captures
`[Widget, TextWidget, FilePath]`: the widget, the class it is cast to, and the path of the
temporary file. -/
structure FOnCompleted where
  Kind : WidgetType
  Widget : WidgetId
  FilePath : FString
  deriving DecidableEq

/-- The closures handed to `Async(EAsyncExecution::TaskGraphMainThread, ...)`. -/
inductive FTask where
  /-- The task posted when the launch fails: show "Failed to start external editor process". -/
  | ShowFailedToStart
  /-- The task posted when the process has completed: `OnCompleted(Code, bCanceling)`. -/
  | CallOnCompleted (OnCompleted : FOnCompleted) (Code : Int) (bCanceling : Bool)
  deriving DecidableEq

/-- The execution contexts: the main (UI) thread, the thread of the `FInteractiveProcess`
that observes the exit of the external process, and any other thread. -/
inductive ExecContext where
  | MainThread
  | ProcessThread
  | Worker (Id : Nat)
  deriving DecidableEq

/-- The calls into the engine that the plugin makes, as recorded in the trace. -/
inductive Event where
  | GetUserFocusedWidget
  | GetText (Kind : WidgetType) (Widget : WidgetId)
  | SetText (Kind : WidgetType) (Widget : WidgetId) (Text : FString)
  | SaveStringToFile (FilePath Contents : FString) (bSaved : Bool)
  | LoadFileToString (FilePath : FString) (bLoaded : Bool)
  | Delete (FilePath : FString)
  | AddNotification (Info : FNotificationInfo)
  | Launch (Binary Params : FString) (bLaunched : Bool)
  | Sleep
  | Async (Task : FTask)
  deriving DecidableEq

/-- The state the plugin acts on: the file system, the widgets and the focused one, the
tasks waiting for the main thread, and the trace of engine calls, each with the
execution context that made it. -/
structure World where
  Files : FileSystem
  Widgets : WidgetId → SWidget
  UserFocusedWidget : Option WidgetId
  MainThreadTasks : List FTask
  Trace : List (ExecContext × Event)

/-- Modelled from the spec: one run of the engine's `FInteractiveProcess`, the
"process-spawning facility with a completion callback", once launched: the number of
polls of the wait loop that find it still running (`none`: it never exits), what the
external program has done to the file system when it exits, and the exit code and
cancellation flag the completion delegate is called with. -/
structure FProcessRun where
  Polls : Option Nat
  Edit : FileSystem → FileSystem
  ReturnCode : Int
  bCanceling : Bool

/-- What the host decides during one invocation: the project's saved directory, the next
GUID, whether the temporary file can be written, and whether the process launches
(`none`: `Launch` fails). -/
structure Host where
  ProjectSavedDir : FString
  NewGuid : FString
  bCanSave : Bool
  Process : Option FProcessRun

/-- The settings object `UExternalEditTextInputsSettings`. -/
structure UExternalEditTextInputsSettings where
  ExternalTextEditorExecutablePath : FString
  ParametersFormat : FString
  deriving DecidableEq

/-- Record an engine call made in context `ctx`. -/
def World.Log (w : World) (ctx : ExecContext) (e : Event) : World :=
  { w with Trace := w.Trace ++ [(ctx, e)] }

/-- Modelled from the spec: the engine's `Async(EAsyncExecution::TaskGraphMainThread, Task)`,
the "way to post a callback onto the UI/main thread": the task is queued for the main
thread. -/
def Async (ctx : ExecContext) (Task : FTask) (w : World) : World :=
  { w.Log ctx (.Async Task) with MainThreadTasks := w.MainThreadTasks ++ [Task] }

/-- Modelled from the spec: the widget's `SetText`, which "replaces displayed content". -/
def SetText (ctx : ExecContext) (Kind : WidgetType) (Widget : WidgetId) (Text : FString)
    (w : World) : World :=
  { w.Log ctx (.SetText Kind Widget Text) with
    Widgets := fun i => if i = Widget then { w.Widgets i with Text := Text } else w.Widgets i }

/-- Modelled from the spec: the engine's `IFileManager::Get().Delete(Path)`.  The model takes
the deletion to succeed: the file is removed, whatever it holds.  (The source discards
the result of the call.) -/
def Delete (ctx : ExecContext) (FilePath : FString) (w : World) : World :=
  { w.Log ctx (.Delete FilePath) with
    Files := fun p => if p = FilePath then none else w.Files p }

/-- Modelled from the spec: the engine's `FFileHelper::LoadFileToString`: the text of the
file, or nothing when the file is missing or cannot be read. -/
def LoadFileToString (Files : FileSystem) (FilePath : FString) : Option FString :=
  match Files FilePath with
  | some (.Text Contents) => some Contents
  | _ => none

/-! ## The plugin -/

/-- The message of the `FailedToStart` notification. -/
def FailedToStartText : FString := "Failed to start external editor process".toList

/-- The message of the `FailedToCreateFile` notification. -/
def FailedToCreateFileText : FString := "Failed to create temporary edit file.".toList

/-- The message of the `NoExe` notification. -/
def NoExeText : FString :=
  "You need to specify external text editor executable first.\nGo to the plugin settings.".toList

/-- The message of the `NoWidget` notification. -/
def NoWidgetText : FString := "No widget selected".toList

/-- `ShowNotification(Text, CompletionState, ExpireDuration)`; the default duration of this
overload is 5 seconds. -/
def ShowNotification (ctx : ExecContext) (Text : FString) (CompletionState : ECompletionState)
    (ExpireDuration : Nat) (w : World) : World :=
  w.Log ctx (.AddNotification ⟨Text, ExpireDuration, CompletionState⟩)

/-- `ShowNotification(Text, bSuccess, ExpireDuration)`; the default duration of this
overload is 15 seconds. -/
def ShowNotificationBool (ctx : ExecContext) (Text : FString) (bSuccess : Bool)
    (ExpireDuration : Nat) (w : World) : World :=
  ShowNotification ctx Text
    (if bSuccess then ECompletionState.CS_Success else ECompletionState.CS_Fail) ExpireDuration w

/-- The local `Params` of `StartExternalEditor`: `FString::Format(*ParamsFormat, {FilePath})`. -/
def StartExternalEditor.Params (ParamsFormat FilePath : FString) : FString :=
  Format ParamsFormat [FilePath]

/-- The wait loop `while (!bProcessCompleted) Sleep(0.001f)` of `StartExternalEditor`, for
a process found running by `Polls` polls. -/
def WaitLoop (ctx : ExecContext) : Nat → World → World
  | 0, w => w
  | n + 1, w => WaitLoop ctx n (w.Log ctx .Sleep)

/-- `StartExternalEditor(Binary, ParamsFormat, FilePath, OnCompleted)`, called in context
`ctx`.  When the launch fails, a notification task is posted and the function returns.
Otherwise the caller polls until the process has completed; the completion delegate runs
on the process thread and posts `OnCompleted(Code, bCanceling)` to the main thread.  The
result is `none` when the process never exits (the function does not return). -/
def StartExternalEditor (ctx : ExecContext) (host : Host) (Binary ParamsFormat FilePath : FString)
    (OnCompleted : FOnCompleted) (w : World) : Option World :=
  let Params := StartExternalEditor.Params ParamsFormat FilePath
  match host.Process with
  | none =>
    some (Async ctx .ShowFailedToStart (w.Log ctx (.Launch Binary Params false)))
  | some run =>
    match run.Polls with
    | none => none
    | some n =>
      let waited := WaitLoop ctx n (w.Log ctx (.Launch Binary Params true))
      some (Async .ProcessThread (.CallOnCompleted OnCompleted run.ReturnCode run.bCanceling)
              { waited with Files := run.Edit waited.Files })

/-- `CreateExternalEditFile(CurrentContents)`: the path of the new temporary file, or
nothing (and a notification) when it cannot be written. -/
def CreateExternalEditFile (ctx : ExecContext) (host : Host) (CurrentContents : FString)
    (w : World) : Option FString × World :=
  let FilePath := Combine host.ProjectSavedDir "ExternalTextEdit".toList host.NewGuid
  if host.bCanSave then
    (some FilePath,
      { w.Log ctx (.SaveStringToFile FilePath CurrentContents true) with
        Files := fun p => if p = FilePath then some (.Text CurrentContents) else w.Files p })
  else
    (none,
      ShowNotification ctx FailedToCreateFileText .CS_Fail 5
        (w.Log ctx (.SaveStringToFile FilePath CurrentContents false)))

/-- `ReadExternalEditFile(FilePath)`: the trimmed text of the file, or nothing when it
cannot be loaded. -/
def ReadExternalEditFile (ctx : ExecContext) (FilePath : FString) (w : World) :
    Option FString × World :=
  match LoadFileToString w.Files FilePath with
  | none => (none, w.Log ctx (.LoadFileToString FilePath false))
  | some Contents => (some (TrimStartAndEnd Contents), w.Log ctx (.LoadFileToString FilePath true))

/-- The completion handler: the body of the closure `OnCompleted` of
`OpenExternalEditorForWidget`, run in context `ctx` with the exit code and the
cancellation flag (both unused). -/
def OnCompleted (cb : FOnCompleted) (_Code : Int) (_bCanceling : Bool) (ctx : ExecContext)
    (w : World) : World :=
  match ReadExternalEditFile ctx cb.FilePath w with
  | (some Contents, w1) =>
    Delete ctx cb.FilePath (SetText ctx cb.Kind cb.Widget Contents w1)
  | (none, w1) => w1

/-- The literal `DefaultParams` of `OpenExternalEditorForWidget`: a quoted placeholder. -/
def DefaultParams : FString := [Quote, OpenBrace, '0', CloseBrace, Quote]

/-- The local `Params` of `OpenExternalEditorForWidget`: the default when the configured
format is empty. -/
def OpenExternalEditorForWidget.Params (Settings : UExternalEditTextInputsSettings) : FString :=
  if Settings.ParametersFormat.isEmpty then DefaultParams else Settings.ParametersFormat

/-- `OpenExternalEditorForWidget<WidgetType>(Widget)`, called in context `ctx`. -/
def OpenExternalEditorForWidget (Kind : WidgetType) (ctx : ExecContext) (host : Host)
    (Settings : UExternalEditTextInputsSettings) (Widget : WidgetId) (w : World) : Option World :=
  let Contents := (w.Widgets Widget).Text
  match CreateExternalEditFile ctx host Contents (w.Log ctx (.GetText Kind Widget)) with
  | (none, w1) => some w1
  | (some FilePath, w1) =>
    StartExternalEditor ctx host Settings.ExternalTextEditorExecutablePath
      (OpenExternalEditorForWidget.Params Settings) FilePath ⟨Kind, Widget, FilePath⟩ w1

/-- `OpenInExternalEditor()`, the command handler, called in context `ctx`. -/
def OpenInExternalEditor (ctx : ExecContext) (host : Host)
    (Settings : UExternalEditTextInputsSettings) (w : World) : Option World :=
  if Settings.ExternalTextEditorExecutablePath.isEmpty then
    some (ShowNotificationBool ctx NoExeText false 15 w)
  else
    let w1 := w.Log ctx .GetUserFocusedWidget
    match w.UserFocusedWidget with
    | none => some (ShowNotificationBool ctx NoWidgetText false 15 w1)
    | some Widget =>
      let TypeTag := (w.Widgets Widget).TypeTag
      if TypeTag.Equals "SMultiLineEditableTextBox".toList then
        OpenExternalEditorForWidget .SMultiLineEditableTextBox ctx host Settings Widget w1
      else if TypeTag.Equals "SMultiLineEditableText".toList then
        OpenExternalEditorForWidget .SMultiLineEditableText ctx host Settings Widget w1
      else if TypeTag.Equals "SEditableText".toList then
        OpenExternalEditorForWidget .SEditableText ctx host Settings Widget w1
      else some w1

/-- Run one task on the main thread. -/
def RunTask (Task : FTask) (w : World) : World :=
  match Task with
  | .ShowFailedToStart => ShowNotification .MainThread FailedToStartText .CS_Fail 5 w
  | .CallOnCompleted cb Code bCanceling => OnCompleted cb Code bCanceling .MainThread w

/-- The main thread runs the tasks that wait for it, in order. -/
def RunMainThreadTasks (w : World) : World :=
  w.MainThreadTasks.foldl (fun acc t => RunTask t acc) { w with MainThreadTasks := [] }

/-! ## Concrete inputs -/

/-- A path of a temporary file. -/
def ExamplePath : FString := "/Saved/ExternalTextEdit/0123ABCD".toList

/-- A closure as `OpenExternalEditorForWidget<SEditableText>` builds it for widget 0. -/
def ExampleOnCompleted : FOnCompleted := ⟨.SEditableText, 0, ExamplePath⟩

/-- A world with one kind of widget (tag `Tag`, text "old text"), widget 0 focused, no file
but `File` at `ExamplePath`, no pending task and an empty trace. -/
def ExampleWorld (Tag : FString) (File : Option FFile) : World where
  Files := fun p => if p = ExamplePath then File else none
  Widgets := fun _ => ⟨⟨Tag⟩, "old text".toList⟩
  UserFocusedWidget := some 0
  MainThreadTasks := []
  Trace := []

/-- A host whose saved directory is `/Saved`, which can write the temporary file, and whose
external process, once launched, is found running twice and then exits with code 0,
having left the files as they were. -/
def ExampleHost : Host where
  ProjectSavedDir := "/Saved".toList
  NewGuid := "0123ABCD".toList
  bCanSave := true
  Process := some ⟨some 2, fun fs => fs, 0, false⟩

/-- Settings with an editor configured and the given parameters format. -/
def ExampleSettings (ParametersFormat : FString) : UExternalEditTextInputsSettings :=
  ⟨"/usr/bin/editor".toList, ParametersFormat⟩

/-- The world in which `OpenInExternalEditor`, invoked on the main thread with default
settings on `ExampleHost`, leaves `ExampleWorld` with a focused `SEditableText`. -/
def ExampleSessionWorld : World where
  Files := fun p =>
    if p = ExamplePath then some (.Text "old text".toList)
    else (ExampleWorld "SEditableText".toList none).Files p
  Widgets := (ExampleWorld "SEditableText".toList none).Widgets
  UserFocusedWidget := some 0
  MainThreadTasks := [.CallOnCompleted ExampleOnCompleted 0 false]
  Trace :=
    [(.MainThread, .GetUserFocusedWidget),
     (.MainThread, .GetText .SEditableText 0),
     (.MainThread, .SaveStringToFile ExamplePath "old text".toList true),
     (.MainThread, .Launch "/usr/bin/editor".toList (Quote :: ExamplePath ++ [Quote]) true),
     (.MainThread, .Sleep),
     (.MainThread, .Sleep),
     (.ProcessThread, .Async (.CallOnCompleted ExampleOnCompleted 0 false))]

/-! ## Properties of the parameter string and of the trace, as predicates -/

/-- The path `P` appears enclosed in double quotes in `s`. -/
def IsQuotedIn (P s : FString) : Prop :=
  ∃ before after : FString, s = before ++ Quote :: P ++ Quote :: after

/-- The events `w2` has recorded beyond those of `w1`. -/
def NewEvents (w1 w2 : World) : List (ExecContext × Event) :=
  w2.Trace.drop w1.Trace.length

/-- An event of a session started in context `ctx` is made in `ctx` itself, or is the
posting of the completion handler by the process thread. -/
def IsSessionEvent (ctx : ExecContext) (x : ExecContext × Event) : Prop :=
  x.1 = ctx ∨
    (x.1 = .ProcessThread ∧ ∃ cb Code bCanceling, x.2 = .Async (.CallOnCompleted cb Code bCanceling))

/-- The trace of `w2` is the trace of `w1` followed by events that satisfy `Q`. -/
def TraceExtends (Q : ExecContext × Event → Prop) (w1 w2 : World) : Prop :=
  ∃ new, w2.Trace = w1.Trace ++ new ∧ ∀ x ∈ new, Q x

/-! ## Trimming -/

/-- The first character left by `dropWhile` does not satisfy the predicate. -/
theorem head?_dropWhile_false (p : Char → Bool) (l : List Char) :
    ∀ c ∈ (l.dropWhile p).head?, p c = false := by
  intro c hc
  have h := List.head?_dropWhile_not p l
  rw [Option.mem_def] at hc
  rw [hc] at h
  exact h

/-- The engine's trimming meets the spec's wording of it. -/
theorem TrimStartAndEnd_spec (s : FString) : IsTrimmedFormOf (TrimStartAndEnd s) s := by
  unfold IsTrimmedFormOf TrimStartAndEnd TrimStart TrimEnd
  refine ⟨⟨(s.reverse.dropWhile IsWhitespace).reverse.takeWhile IsWhitespace,
    (s.reverse.takeWhile IsWhitespace).reverse, ?_, ?_, ?_⟩, ?_, ?_⟩
  · rw [List.takeWhile_append_dropWhile]
    have h := congrArg List.reverse (List.takeWhile_append_dropWhile IsWhitespace s.reverse)
    rw [List.reverse_append, List.reverse_reverse] at h
    exact h.symm
  · intro c hc
    exact List.mem_takeWhile_imp hc
  · intro c hc
    exact List.mem_takeWhile_imp (List.mem_reverse.1 hc)
  · exact head?_dropWhile_false _ _
  · intro c hc
    obtain ⟨pre, hpre⟩ :=
      List.dropWhile_suffix IsWhitespace (l := (s.reverse.dropWhile IsWhitespace).reverse)
    have hne : ((s.reverse.dropWhile IsWhitespace).reverse.dropWhile IsWhitespace) ≠ [] := by
      intro h
      rw [h] at hc
      simp at hc
    have hlast : (s.reverse.dropWhile IsWhitespace).reverse.getLast? = some c := by
      rw [← hpre, List.getLast?_append_of_ne_nil _ hne]
      exact hc
    rw [List.getLast?_reverse] at hlast
    exact head?_dropWhile_false IsWhitespace s.reverse c hlast

/-- A list whose first element fails the predicate is left whole by `dropWhile`. -/
theorem dropWhile_of_head_false (p : Char → Bool) (l : List Char)
    (h : ∀ c ∈ l.head?, p c = false) : l.dropWhile p = l := by
  cases l with
  | nil => rfl
  | cons a t =>
    have ha : p a = false := h a (by simp)
    simp [List.dropWhile_cons, ha]

/-- The spec's wording of trimming determines the result: the only trimmed form of `s` is
the one the engine computes. -/
theorem IsTrimmedFormOf_unique (r s : FString) (h : IsTrimmedFormOf r s) :
    r = TrimStartAndEnd s := by
  obtain ⟨⟨lead, trail, hs, hl, ht⟩, hh, hlast⟩ := h
  subst hs
  unfold TrimStartAndEnd TrimStart TrimEnd
  have h1 : (lead ++ r ++ trail).reverse.dropWhile IsWhitespace
      = (lead ++ r).reverse.dropWhile IsWhitespace := by
    rw [List.reverse_append, List.dropWhile_append_of_pos]
    intro a ha
    exact ht a (List.mem_reverse.1 ha)
  rw [h1]
  by_cases hr : r = []
  · subst hr
    have h2 : (lead ++ []).reverse.dropWhile IsWhitespace = [] := by
      rw [List.dropWhile_eq_nil_iff]
      intro a ha
      rw [List.append_nil] at ha
      exact hl a (List.mem_reverse.1 ha)
    rw [h2]
    rfl
  · have h2 : (lead ++ r).reverse.dropWhile IsWhitespace = (lead ++ r).reverse := by
      apply dropWhile_of_head_false
      rw [List.head?_reverse, List.getLast?_append_of_ne_nil _ hr]
      exact hlast
    rw [h2, List.reverse_reverse, List.dropWhile_append_of_pos hl]
    exact (dropWhile_of_head_false _ _ hh).symm

/-! ## The formatter -/

/-- The index placeholder leaves strictly less input than it was given. -/
theorem ParseIndex_length (s : FString) (t : FormatToken) (rest : FString)
    (h : ParseIndex s = some (t, rest)) : rest.length < s.length := by
  unfold ParseIndex at h
  cases s with
  | nil => simp at h
  | cons c cs =>
    simp only at h
    split_ifs at h with h1 h2
    split at h
    · simp at h
    · rename_i d remaining heq
      split_ifs at h with h3
      simp only [Option.some.injEq, Prod.mk.injEq] at h
      obtain ⟨-, rfl⟩ := h
      have hlen := congrArg List.length heq
      have hle1 := (List.dropWhile_suffix IsWhitespace
        (l := (cs.dropWhile IsWhitespace).dropWhile IsDigit)).length_le
      have hle2 := (List.dropWhile_suffix IsDigit (l := cs.dropWhile IsWhitespace)).length_le
      have hle3 := (List.dropWhile_suffix IsWhitespace (l := cs)).length_le
      simp only [List.length_cons] at hlen ⊢
      omega

/-- The escape sequence leaves strictly less input than it was given. -/
theorem ParseEscapedChar_length (s : FString) (t : FormatToken) (rest : FString)
    (h : ParseEscapedChar s = some (t, rest)) : rest.length < s.length := by
  unfold ParseEscapedChar at h
  split at h
  · split_ifs at h
    simp only [Option.some.injEq, Prod.mk.injEq] at h
    obtain ⟨-, rfl⟩ := h
    simp only [List.length_cons]
    omega
  · simp at h

/-- The literal leaves strictly less input than it was given. -/
theorem ParseLiteral_length (s : FString) (t : FormatToken) (rest : FString)
    (h : ParseLiteral s = some (t, rest)) : rest.length < s.length := by
  unfold ParseLiteral at h
  cases s with
  | nil => simp at h
  | cons c cs =>
    simp only at h
    split_ifs at h
    simp only [Option.some.injEq, Prod.mk.injEq] at h
    obtain ⟨-, rfl⟩ := h
    have hle := (List.dropWhile_suffix (fun x => !IsLiteralStop x) (l := cs)).length_le
    simp only [List.length_cons]
    omega

/-- Every token holds at least one character. -/
theorem ConsumeToken_length (s : FString) (t : FormatToken) (rest : FString)
    (h : ConsumeToken s = some (t, rest)) : rest.length < s.length := by
  unfold ConsumeToken at h
  split at h
  · rename_i r hr
    simp only [Option.some.injEq] at h
    subst h
    exact ParseIndex_length s t rest hr
  · split at h
    · rename_i r hr
      simp only [Option.some.injEq] at h
      subst h
      exact ParseEscapedChar_length s t rest hr
    · exact ParseLiteral_length s t rest h

/-- With at least as much fuel as the input is long, the lexer loop does not run out. -/
theorem LexAux_ne_OutOfFuel (fuel : Nat) :
    ∀ s : FString, s.length ≤ fuel → LexAux fuel s ≠ .OutOfFuel := by
  induction fuel with
  | zero =>
    intro s hs
    cases s with
    | nil => simp [LexAux]
    | cons c cs => simp at hs
  | succ n ih =>
    intro s hs
    cases s with
    | nil => simp [LexAux]
    | cons c cs =>
      simp only [LexAux]
      split
      · simp
      · rename_i t rest heq
        have hlt := ConsumeToken_length _ _ _ heq
        have hrest := ih rest (by simp only [List.length_cons] at hs hlt; omega)
        cases hres : LexAux n rest with
        | Tokens ts => simp [LexResult.Cons]
        | Error => simp [LexResult.Cons]
        | OutOfFuel => exact absurd hres hrest

/-- Lexing is total: it ends with the tokens or with the lexer's error, never for lack of
fuel. -/
theorem Lex_ne_OutOfFuel (s : FString) : Lex s ≠ .OutOfFuel :=
  LexAux_ne_OutOfFuel s.length s (le_refl _)

theorem IsLiteralStop_false (c : Char) (h : IsLiteralStop c = false) :
    c ≠ OpenBrace ∧ c ≠ EscapeChar := by
  simpa [IsLiteralStop] using h

/-- The lexer reads the placeholder for the first argument as one index token. -/
theorem ParseIndex_Placeholder (B : FString) :
    ParseIndex (Placeholder ++ B) = some (.IndexSpecifier 0 Placeholder, B) := by
  have hw : IsWhitespace '0' = false := by decide
  have hd : IsDigit '0' = true := by decide
  have hc : IsDigit CloseBrace = false := by decide
  have hcw : IsWhitespace CloseBrace = false := by decide
  have hp : ParseDigits ['0'] = 0 := by decide
  have hlen : B.length + 1 + 1 + 1 - B.length = 3 := by omega
  simp [ParseIndex, Placeholder, List.dropWhile_cons, List.takeWhile_cons, hw, hd, hc, hcw, hp,
    hlen]

theorem ConsumeToken_Placeholder (B : FString) :
    ConsumeToken (Placeholder ++ B) = some (.IndexSpecifier 0 Placeholder, B) := by
  simp [ConsumeToken, ParseIndex_Placeholder]

/-- No escape sequence starts with a character other than the escape character. -/
theorem ParseEscapedChar_none (a : Char) (l : FString) (ha : a ≠ EscapeChar) :
    ParseEscapedChar (a :: l) = none := by
  cases l with
  | nil => rfl
  | cons b l => simp [ParseEscapedChar, ha]

/-- One round of the lexer loop. -/
theorem LexAux_succ_cons (fuel : Nat) (c : Char) (cs : FString) (t : FormatToken)
    (rest : FString) (h : ConsumeToken (c :: cs) = some (t, rest)) :
    LexAux (fuel + 1) (c :: cs) = (LexAux fuel rest).Cons t := by
  simp only [LexAux, h]

/-- Plain text followed by an opening brace, or by nothing, is read as one literal. -/
theorem ConsumeToken_plain (a : Char) (A rest : FString) (hA : IsPlain (a :: A))
    (hrest : rest = [] ∨ ∃ tail, rest = OpenBrace :: tail) :
    ConsumeToken ((a :: A) ++ rest) = some (.StringLiteral (a :: A), rest) := by
  have ha := IsLiteralStop_false a (hA a (by simp))
  have hA2 : ∀ c ∈ A, (fun x => !IsLiteralStop x) c = true := by
    intro c hc
    simp [hA c (by simp [hc])]
  have htake : (A ++ rest).takeWhile (fun x => !IsLiteralStop x) = A := by
    rw [List.takeWhile_append_of_pos hA2]
    rcases hrest with h | ⟨tail, h⟩
    · subst h
      simp
    · subst h
      simp [List.takeWhile_cons, IsLiteralStop]
  have hdrop : (A ++ rest).dropWhile (fun x => !IsLiteralStop x) = rest := by
    rw [List.dropWhile_append_of_pos hA2]
    rcases hrest with h | ⟨tail, h⟩
    · subst h
      simp
    · subst h
      simp [List.dropWhile_cons, IsLiteralStop]
  have hesc := ParseEscapedChar_none a (A ++ rest) ha.2
  rw [List.cons_append]
  simp [ConsumeToken, ParseIndex, hesc, ParseLiteral, ha.1, ha.2, htake, hdrop]

/-- Lexing plain text. -/
theorem LexAux_plain (n : Nat) (B : FString) (hB : IsPlain B) :
    LexAux (n + 1) B = .Tokens (LiteralTokens B) := by
  cases B with
  | nil => simp [LexAux, LiteralTokens]
  | cons b B =>
    have h := ConsumeToken_plain b B [] hB (Or.inl rfl)
    rw [List.append_nil] at h
    rw [LexAux_succ_cons n b B _ _ h]
    cases n <;> simp [LexAux, LexResult.Cons, LiteralTokens]

/-- Lexing a placeholder followed by plain text. -/
theorem LexAux_Placeholder_plain (n : Nat) (B : FString) (hB : IsPlain B) :
    LexAux (n + 2) (Placeholder ++ B)
      = .Tokens (.IndexSpecifier 0 Placeholder :: LiteralTokens B) := by
  have h := ConsumeToken_Placeholder B
  have hcons : Placeholder ++ B = OpenBrace :: ('0' :: CloseBrace :: B) := rfl
  rw [hcons] at h ⊢
  rw [LexAux_succ_cons (n + 1) _ _ _ _ h, LexAux_plain n B hB]
  rfl

/-- Lexing a format string with one placeholder between two runs of plain text. -/
theorem LexAux_plain_Placeholder_plain (n : Nat) (A B : FString) (hA : IsPlain A)
    (hB : IsPlain B) :
    LexAux (n + 3) (A ++ Placeholder ++ B)
      = .Tokens (LiteralTokens A ++ .IndexSpecifier 0 Placeholder :: LiteralTokens B) := by
  cases A with
  | nil =>
    rw [List.nil_append]
    exact LexAux_Placeholder_plain (n + 1) B hB
  | cons a A =>
    have h := ConsumeToken_plain a A (Placeholder ++ B) hA (Or.inr ⟨_, rfl⟩)
    rw [List.append_assoc]
    rw [List.cons_append] at h ⊢
    rw [LexAux_succ_cons (n + 2) _ _ _ _ h, LexAux_Placeholder_plain n B hB]
    simp [LexResult.Cons, LiteralTokens]

theorem foldl_AppendToken_LiteralTokens (Args : List FString) (acc B : FString) :
    (LiteralTokens B).foldl (AppendToken Args) acc = acc ++ B := by
  unfold LiteralTokens
  split_ifs with h
  · simp [h]
  · simp [AppendToken]

/-- A format string with one placeholder between two runs of plain text: the argument
takes the place of the placeholder and the text around it is copied. -/
theorem Format_plain_Placeholder_plain (A B P : FString) (hA : IsPlain A) (hB : IsPlain B) :
    Format (A ++ Placeholder ++ B) [P] = A ++ P ++ B := by
  have hlen : (A ++ Placeholder ++ B).length = (A.length + B.length) + 3 := by
    simp [Placeholder]
    omega
  have hlex := LexAux_plain_Placeholder_plain (A.length + B.length) A B hA hB
  unfold Format Lex
  rw [hlen, hlex]
  have hfold : (LiteralTokens A ++ .IndexSpecifier 0 Placeholder :: LiteralTokens B).foldl
      (AppendToken [P]) [] = A ++ P ++ B := by
    rw [List.foldl_append, foldl_AppendToken_LiteralTokens, List.foldl_cons,
      foldl_AppendToken_LiteralTokens]
    simp [AppendToken]
  cases hts : LiteralTokens A ++ .IndexSpecifier 0 Placeholder :: LiteralTokens B with
  | nil => simp at hts
  | cons t ts =>
    rw [hts] at hfold
    exact hfold

/-! ## The completion handler -/

/-- What the completion handler does when the temporary file can be loaded. -/
theorem OnCompleted_loaded (cb : FOnCompleted) (Code : Int) (bCanceling : Bool)
    (ctx : ExecContext) (w : World) (C : FString)
    (h : LoadFileToString w.Files cb.FilePath = some C) :
    OnCompleted cb Code bCanceling ctx w
      = Delete ctx cb.FilePath
          (SetText ctx cb.Kind cb.Widget (TrimStartAndEnd C)
            (w.Log ctx (.LoadFileToString cb.FilePath true))) := by
  simp [OnCompleted, ReadExternalEditFile, h]

/-- What the completion handler does when the temporary file cannot be loaded. -/
theorem OnCompleted_not_loaded (cb : FOnCompleted) (Code : Int) (bCanceling : Bool)
    (ctx : ExecContext) (w : World) (h : LoadFileToString w.Files cb.FilePath = none) :
    OnCompleted cb Code bCanceling ctx w = w.Log ctx (.LoadFileToString cb.FilePath false) := by
  simp [OnCompleted, ReadExternalEditFile, h]

/-- C1: for every text `C` held by the temporary file when the completion handler runs, and
for every exit code and cancellation flag, the handler sets the text of the widget to `C`
with its leading and trailing white space removed (the text the engine's trimming
computes, which is the trimmed form of `C` in the spec's sense), and the temporary file
does not exist afterwards. -/
theorem OnCompleted_sets_trimmed_text_and_deletes (cb : FOnCompleted) (Code : Int)
    (bCanceling : Bool) (ctx : ExecContext) (w : World) (C : FString)
    (h : w.Files cb.FilePath = some (.Text C)) :
    ((OnCompleted cb Code bCanceling ctx w).Widgets cb.Widget).Text = TrimStartAndEnd C ∧
    IsTrimmedFormOf ((OnCompleted cb Code bCanceling ctx w).Widgets cb.Widget).Text C ∧
    (OnCompleted cb Code bCanceling ctx w).Files cb.FilePath = none := by
  have hload : LoadFileToString w.Files cb.FilePath = some C := by
    simp [LoadFileToString, h]
  have htext : ((OnCompleted cb Code bCanceling ctx w).Widgets cb.Widget).Text
      = TrimStartAndEnd C := by
    rw [OnCompleted_loaded cb Code bCanceling ctx w C hload]
    simp [Delete, SetText, World.Log]
  refine ⟨htext, ?_, ?_⟩
  · rw [htext]
    exact TrimStartAndEnd_spec C
  · rw [OnCompleted_loaded cb Code bCanceling ctx w C hload]
    simp [Delete]

/-- C1 at the spec's example: exit code 0 and a temporary file that holds "Hello World",
a line feed and two spaces; the widget receives "Hello World". -/
theorem OnCompleted_sets_trimmed_text_and_deletes_witness :
    (ExampleWorld "SEditableText".toList (some (.Text "Hello World\n  ".toList))).Files
        ExampleOnCompleted.FilePath = some (.Text "Hello World\n  ".toList) ∧
    TrimStartAndEnd "Hello World\n  ".toList = "Hello World".toList ∧
    (((OnCompleted ExampleOnCompleted 0 false .MainThread
        (ExampleWorld "SEditableText".toList (some (.Text "Hello World\n  ".toList)))).Widgets
          ExampleOnCompleted.Widget).Text = TrimStartAndEnd "Hello World\n  ".toList ∧
      IsTrimmedFormOf
        ((OnCompleted ExampleOnCompleted 0 false .MainThread
          (ExampleWorld "SEditableText".toList (some (.Text "Hello World\n  ".toList)))).Widgets
            ExampleOnCompleted.Widget).Text "Hello World\n  ".toList ∧
      (OnCompleted ExampleOnCompleted 0 false .MainThread
        (ExampleWorld "SEditableText".toList (some (.Text "Hello World\n  ".toList)))).Files
          ExampleOnCompleted.FilePath = none) :=
  ⟨by decide, by decide,
    OnCompleted_sets_trimmed_text_and_deletes ExampleOnCompleted 0 false .MainThread
      (ExampleWorld "SEditableText".toList (some (.Text "Hello World\n  ".toList)))
      "Hello World\n  ".toList (by decide)⟩

/-- C2: whenever the temporary file cannot be loaded when the completion handler runs
(`ReadExternalEditFile` returns no value; in particular when the file is missing), the
handler returns having changed no widget, no file and no pending task, and having
recorded nothing but the failed load: no notification is shown. -/
theorem OnCompleted_discards_when_not_loaded (cb : FOnCompleted) (Code : Int)
    (bCanceling : Bool) (ctx : ExecContext) (w : World)
    (h : (ReadExternalEditFile ctx cb.FilePath w).1 = none) :
    (OnCompleted cb Code bCanceling ctx w).Widgets = w.Widgets ∧
    (OnCompleted cb Code bCanceling ctx w).Files = w.Files ∧
    (OnCompleted cb Code bCanceling ctx w).UserFocusedWidget = w.UserFocusedWidget ∧
    (OnCompleted cb Code bCanceling ctx w).MainThreadTasks = w.MainThreadTasks ∧
    (OnCompleted cb Code bCanceling ctx w).Trace
      = w.Trace ++ [(ctx, .LoadFileToString cb.FilePath false)] := by
  have hload : LoadFileToString w.Files cb.FilePath = none := by
    unfold ReadExternalEditFile at h
    cases hl : LoadFileToString w.Files cb.FilePath with
    | none => rfl
    | some C => simp [hl] at h
  rw [OnCompleted_not_loaded cb Code bCanceling ctx w hload]
  simp [World.Log]

/-- C2 at a world in which the temporary file is missing. -/
theorem OnCompleted_discards_when_not_loaded_witness :
    (ExampleWorld "SEditableText".toList none).Files ExampleOnCompleted.FilePath = none ∧
    (ReadExternalEditFile .MainThread ExampleOnCompleted.FilePath
      (ExampleWorld "SEditableText".toList none)).1 = none ∧
    ((OnCompleted ExampleOnCompleted 1 true .MainThread
        (ExampleWorld "SEditableText".toList none)).Widgets
        = (ExampleWorld "SEditableText".toList none).Widgets ∧
      (OnCompleted ExampleOnCompleted 1 true .MainThread
        (ExampleWorld "SEditableText".toList none)).Files
        = (ExampleWorld "SEditableText".toList none).Files ∧
      (OnCompleted ExampleOnCompleted 1 true .MainThread
        (ExampleWorld "SEditableText".toList none)).UserFocusedWidget
        = (ExampleWorld "SEditableText".toList none).UserFocusedWidget ∧
      (OnCompleted ExampleOnCompleted 1 true .MainThread
        (ExampleWorld "SEditableText".toList none)).MainThreadTasks
        = (ExampleWorld "SEditableText".toList none).MainThreadTasks ∧
      (OnCompleted ExampleOnCompleted 1 true .MainThread
        (ExampleWorld "SEditableText".toList none)).Trace
        = (ExampleWorld "SEditableText".toList none).Trace
            ++ [(.MainThread, .LoadFileToString ExampleOnCompleted.FilePath false)]) :=
  ⟨by decide, by decide,
    OnCompleted_discards_when_not_loaded ExampleOnCompleted 1 true .MainThread
      (ExampleWorld "SEditableText".toList none) (by decide)⟩

/-- C9, as the claim states it, fails: when the temporary file exists but cannot be read,
the completion handler leaves it where it is. -/
theorem OnCompleted_keeps_unreadable_file :
    LoadFileToString (ExampleWorld "SEditableText".toList (some .Unreadable)).Files
        ExampleOnCompleted.FilePath = none ∧
    (OnCompleted ExampleOnCompleted 0 false .MainThread
        (ExampleWorld "SEditableText".toList (some .Unreadable))).Files
        ExampleOnCompleted.FilePath = some .Unreadable ∧
    (.MainThread, Event.Delete ExampleOnCompleted.FilePath)
      ∉ (OnCompleted ExampleOnCompleted 0 false .MainThread
          (ExampleWorld "SEditableText".toList (some .Unreadable))).Trace := by
  decide

/-- C9, amended: once the completion handler has attempted to read the temporary file
back, the file has been deleted if the read succeeded; if the read failed, the handler
has deleted nothing and the path holds what it held before. -/
theorem OnCompleted_deletes_iff_loaded (cb : FOnCompleted) (Code : Int) (bCanceling : Bool)
    (ctx : ExecContext) (w : World) :
    (OnCompleted cb Code bCanceling ctx w).Files cb.FilePath
      = (if (LoadFileToString w.Files cb.FilePath).isSome then none else w.Files cb.FilePath) ∧
    ((ctx, Event.Delete cb.FilePath) ∈ NewEvents w (OnCompleted cb Code bCanceling ctx w)
      ↔ (LoadFileToString w.Files cb.FilePath).isSome = true) := by
  cases hl : LoadFileToString w.Files cb.FilePath with
  | none =>
    rw [OnCompleted_not_loaded cb Code bCanceling ctx w hl]
    simp [World.Log, NewEvents]
  | some C =>
    rw [OnCompleted_loaded cb Code bCanceling ctx w C hl]
    simp [Delete, SetText, World.Log, NewEvents]

/-! ## The command handler -/

/-- C3: when the configured executable path is empty, whatever widget is or is not
focused, `OpenInExternalEditor` returns and its only effect is one failure notification
("You need to specify external text editor executable first..."): files, widgets and
pending tasks are as before and nothing else is recorded (no save, no launch, no read or
change of a widget's text). -/
theorem OpenInExternalEditor_not_configured (ctx : ExecContext) (host : Host)
    (Settings : UExternalEditTextInputsSettings) (w : World)
    (h : Settings.ExternalTextEditorExecutablePath = []) :
    OpenInExternalEditor ctx host Settings w
      = some { w with
          Trace := w.Trace ++ [(ctx, .AddNotification ⟨NoExeText, 15, .CS_Fail⟩)] } := by
  simp [OpenInExternalEditor, h, ShowNotificationBool, ShowNotification, World.Log]

/-- C3 with a text widget focused and with no widget focused. -/
theorem OpenInExternalEditor_not_configured_witness :
    (⟨[], []⟩ : UExternalEditTextInputsSettings).ExternalTextEditorExecutablePath = [] ∧
    OpenInExternalEditor .MainThread ExampleHost ⟨[], []⟩
        (ExampleWorld "SEditableText".toList none)
      = some { ExampleWorld "SEditableText".toList none with
          Trace := (ExampleWorld "SEditableText".toList none).Trace
            ++ [(.MainThread, .AddNotification ⟨NoExeText, 15, .CS_Fail⟩)] } ∧
    OpenInExternalEditor .MainThread ExampleHost ⟨[], []⟩
        { ExampleWorld "SEditableText".toList none with UserFocusedWidget := none }
      = some { ExampleWorld "SEditableText".toList none with
          UserFocusedWidget := none
          Trace := (ExampleWorld "SEditableText".toList none).Trace
            ++ [(.MainThread, .AddNotification ⟨NoExeText, 15, .CS_Fail⟩)] } :=
  ⟨rfl,
    OpenInExternalEditor_not_configured .MainThread ExampleHost ⟨[], []⟩
      (ExampleWorld "SEditableText".toList none) rfl,
    OpenInExternalEditor_not_configured .MainThread ExampleHost ⟨[], []⟩
      { ExampleWorld "SEditableText".toList none with UserFocusedWidget := none } rfl⟩

/-- C4: with a non-empty executable path and a valid focused widget whose type tag is none
of `SMultiLineEditableTextBox`, `SMultiLineEditableText` and `SEditableText`,
`OpenInExternalEditor` returns having done nothing but ask for the focused widget: no
file is written, no process is started, no notification is shown, no task is posted and
no widget is changed. -/
theorem OpenInExternalEditor_unsupported_widget (ctx : ExecContext) (host : Host)
    (Settings : UExternalEditTextInputsSettings) (w : World) (Widget : WidgetId)
    (hexe : Settings.ExternalTextEditorExecutablePath ≠ [])
    (hfocus : w.UserFocusedWidget = some Widget)
    (h1 : (w.Widgets Widget).TypeTag.Equals "SMultiLineEditableTextBox".toList = false)
    (h2 : (w.Widgets Widget).TypeTag.Equals "SMultiLineEditableText".toList = false)
    (h3 : (w.Widgets Widget).TypeTag.Equals "SEditableText".toList = false) :
    OpenInExternalEditor ctx host Settings w
      = some { w with Trace := w.Trace ++ [(ctx, .GetUserFocusedWidget)] } := by
  have hne : Settings.ExternalTextEditorExecutablePath.isEmpty = false := by
    cases hp : Settings.ExternalTextEditorExecutablePath with
    | nil => exact absurd hp hexe
    | cons a l => rfl
  simp only [OpenInExternalEditor, hne, hfocus, h1, h2, h3, World.Log, Bool.false_eq_true,
    if_false]

/-- C4 with a focused `SButton`. -/
theorem OpenInExternalEditor_unsupported_widget_witness :
    (ExampleSettings []).ExternalTextEditorExecutablePath ≠ [] ∧
    (ExampleWorld "SButton".toList none).UserFocusedWidget = some 0 ∧
    OpenInExternalEditor .MainThread ExampleHost (ExampleSettings [])
        (ExampleWorld "SButton".toList none)
      = some { ExampleWorld "SButton".toList none with
          Trace := (ExampleWorld "SButton".toList none).Trace
            ++ [(.MainThread, .GetUserFocusedWidget)] } :=
  ⟨by decide, rfl,
    OpenInExternalEditor_unsupported_widget .MainThread ExampleHost (ExampleSettings [])
      (ExampleWorld "SButton".toList none) 0 (by decide) rfl (by decide) (by decide)
      (by decide)⟩

/-! ## The parameter string -/

/-- C5: when the configured `ParametersFormat` is empty, the parameter string handed to the
external process is a double quote, the path of the temporary file, and a double quote,
for every path. -/
theorem Params_default_quotes_path (Settings : UExternalEditTextInputsSettings) (P : FString)
    (h : Settings.ParametersFormat = []) :
    StartExternalEditor.Params (OpenExternalEditorForWidget.Params Settings) P
      = Quote :: P ++ [Quote] := by
  have hfmt : OpenExternalEditorForWidget.Params Settings = [Quote] ++ Placeholder ++ [Quote] := by
    simp [OpenExternalEditorForWidget.Params, h, DefaultParams, Placeholder]
  rw [hfmt]
  unfold StartExternalEditor.Params
  rw [Format_plain_Placeholder_plain [Quote] [Quote] P (by decide) (by decide)]
  simp

/-- C5 at a path with a space. -/
theorem Params_default_quotes_path_witness :
    (ExampleSettings []).ParametersFormat = [] ∧
    StartExternalEditor.Params (OpenExternalEditorForWidget.Params (ExampleSettings []))
        "/My Project/Saved/ExternalTextEdit/0123ABCD".toList
      = Quote :: "/My Project/Saved/ExternalTextEdit/0123ABCD".toList ++ [Quote] :=
  ⟨rfl, Params_default_quotes_path (ExampleSettings []) _ rfl⟩

/-- C6, as the claim states it, fails: the format string made of two placeholders is of
the form `A ++ "{0}" ++ B` with `A` the placeholder and `B` empty, and the path is
substituted at both places. -/
theorem Params_substitutes_every_placeholder :
    (ExampleSettings (Placeholder ++ Placeholder ++ [])).ParametersFormat ≠ [] ∧
    StartExternalEditor.Params
        (OpenExternalEditorForWidget.Params (ExampleSettings (Placeholder ++ Placeholder ++ [])))
        ExamplePath
      = ExamplePath ++ ExamplePath ∧
    StartExternalEditor.Params
        (OpenExternalEditorForWidget.Params (ExampleSettings (Placeholder ++ Placeholder ++ [])))
        ExamplePath
      ≠ Placeholder ++ ExamplePath ++ [] := by
  decide

/-- C6, amended: for every `ParametersFormat` of the form `A ++ "{0}" ++ B` in which `A` and
`B` hold no opening brace and no escape character (no further placeholder and no escape
sequence), and every path `P`, the parameter string handed to the external process is
`A ++ P ++ B`. -/
theorem Params_substitutes_single_placeholder (Settings : UExternalEditTextInputsSettings)
    (A B P : FString) (hA : IsPlain A) (hB : IsPlain B)
    (h : Settings.ParametersFormat = A ++ Placeholder ++ B) :
    StartExternalEditor.Params (OpenExternalEditorForWidget.Params Settings) P
      = A ++ P ++ B := by
  have hfmt : OpenExternalEditorForWidget.Params Settings = A ++ Placeholder ++ B := by
    simp [OpenExternalEditorForWidget.Params, h, Placeholder]
  rw [hfmt]
  exact Format_plain_Placeholder_plain A B P hA hB

/-- C6, amended, at the two format strings of the claim. -/
theorem Params_substitutes_single_placeholder_witness :
    (IsPlain "--filepath=\"".toList ∧ IsPlain "\" --flag".toList ∧
      (ExampleSettings ("--filepath=\"".toList ++ Placeholder ++ "\" --flag".toList)).ParametersFormat
        = "--filepath=\"".toList ++ Placeholder ++ "\" --flag".toList) ∧
    StartExternalEditor.Params
        (OpenExternalEditorForWidget.Params
          (ExampleSettings ("--filepath=\"".toList ++ Placeholder ++ "\" --flag".toList)))
        ExamplePath
      = "--filepath=\"".toList ++ ExamplePath ++ "\" --flag".toList ∧
    StartExternalEditor.Params
        (OpenExternalEditorForWidget.Params
          (ExampleSettings
            ("--quiet --open-fast --no-plugins \"".toList ++ Placeholder ++ "\"".toList)))
        ExamplePath
      = "--quiet --open-fast --no-plugins \"".toList ++ ExamplePath ++ "\"".toList :=
  ⟨⟨by decide, by decide, rfl⟩,
    Params_substitutes_single_placeholder _ _ _ ExamplePath (by decide) (by decide) rfl,
    Params_substitutes_single_placeholder _ _ _ ExamplePath (by decide) (by decide) rfl⟩

/-- C8, as the claim states it, fails: with the format string `--file={0}` the parameter
string is `--file=` followed by the bare path; it holds no double quote at all. -/
theorem Params_adds_no_quotes :
    StartExternalEditor.Params
        (OpenExternalEditorForWidget.Params (ExampleSettings ("--file=".toList ++ Placeholder)))
        ExamplePath
      = "--file=".toList ++ ExamplePath ∧
    ¬ IsQuotedIn ExamplePath
        (StartExternalEditor.Params
          (OpenExternalEditorForWidget.Params (ExampleSettings ("--file=".toList ++ Placeholder)))
          ExamplePath) := by
  refine ⟨by decide, ?_⟩
  rintro ⟨before, after, h⟩
  have hmem : Quote ∈ StartExternalEditor.Params
      (OpenExternalEditorForWidget.Params (ExampleSettings ("--file=".toList ++ Placeholder)))
      ExamplePath := by
    rw [h]
    simp
  revert hmem
  decide

/-- C8, amended: for every format string `A ++ "{0}" ++ B` in which `A` and `B` hold no opening
brace and no escape character, and every path `P`, the parameter string holds no double
quote beyond those of `A`, `P` and `B` (the launcher adds none), and the path appears
enclosed in double quotes whenever the format string puts double quotes around its
placeholder (`A` ends with one and `B` starts with one). -/
theorem Params_quotes_come_from_format (Settings : UExternalEditTextInputsSettings)
    (A B P : FString) (hA : IsPlain A) (hB : IsPlain B)
    (h : Settings.ParametersFormat = A ++ Placeholder ++ B) :
    (StartExternalEditor.Params (OpenExternalEditorForWidget.Params Settings) P).count Quote
      = A.count Quote + P.count Quote + B.count Quote ∧
    (A.getLast? = some Quote → B.head? = some Quote →
      IsQuotedIn P (StartExternalEditor.Params (OpenExternalEditorForWidget.Params Settings) P)) := by
  have hfmt : OpenExternalEditorForWidget.Params Settings = A ++ Placeholder ++ B := by
    simp [OpenExternalEditorForWidget.Params, h, Placeholder]
  have hpar : StartExternalEditor.Params (OpenExternalEditorForWidget.Params Settings) P
      = A ++ P ++ B := by
    rw [hfmt]
    exact Format_plain_Placeholder_plain A B P hA hB
  rw [hpar]
  refine ⟨by simp [List.count_append, Nat.add_assoc], ?_⟩
  intro hlast hhead
  obtain ⟨A0, rfl⟩ : ∃ A0, A = A0 ++ [Quote] := by
    rcases List.eq_nil_or_concat A with hnil | ⟨A0, q, hq⟩
    · subst hnil
      simp at hlast
    · subst hq
      simp at hlast
      exact ⟨A0, by rw [hlast]; simp⟩
  obtain ⟨B0, rfl⟩ : ∃ B0, B = Quote :: B0 := by
    cases B with
    | nil => simp at hhead
    | cons b B0 =>
      simp at hhead
      exact ⟨B0, by rw [hhead]⟩
  exact ⟨A0, B0, by simp⟩

/-- C8, amended, at the format string `--filepath="{0}"` of the settings' documentation. -/
theorem Params_quotes_come_from_format_witness :
    (IsPlain "--filepath=\"".toList ∧ IsPlain "\"".toList ∧
      (ExampleSettings ("--filepath=\"".toList ++ Placeholder ++ "\"".toList)).ParametersFormat
        = "--filepath=\"".toList ++ Placeholder ++ "\"".toList) ∧
    ((StartExternalEditor.Params
        (OpenExternalEditorForWidget.Params
          (ExampleSettings ("--filepath=\"".toList ++ Placeholder ++ "\"".toList)))
        ExamplePath).count Quote
      = "--filepath=\"".toList.count Quote + ExamplePath.count Quote + "\"".toList.count Quote ∧
    ("--filepath=\"".toList.getLast? = some Quote → "\"".toList.head? = some Quote →
      IsQuotedIn ExamplePath
        (StartExternalEditor.Params
          (OpenExternalEditorForWidget.Params
            (ExampleSettings ("--filepath=\"".toList ++ Placeholder ++ "\"".toList)))
          ExamplePath))) :=
  ⟨⟨by decide, by decide, rfl⟩,
    Params_quotes_come_from_format _ _ _ ExamplePath (by decide) (by decide) rfl⟩

/-! ## Launching and waiting -/

/-- C7: when launching the process fails, `StartExternalEditor` returns at once: it has
tried the launch and posted one task to the main thread, the one that shows the failure
notification "Failed to start external editor process"; it has not slept, it has posted
no call of the completion callback, and files and widgets are as before.  The posted
task, when run, shows exactly that notification and does nothing else. -/
theorem StartExternalEditor_launch_fails (ctx : ExecContext) (host : Host)
    (Binary ParamsFormat FilePath : FString) (cb : FOnCompleted) (w : World)
    (h : host.Process = none) :
    StartExternalEditor ctx host Binary ParamsFormat FilePath cb w
      = some { w with
          MainThreadTasks := w.MainThreadTasks ++ [.ShowFailedToStart]
          Trace := w.Trace ++
            [(ctx, .Launch Binary (StartExternalEditor.Params ParamsFormat FilePath) false),
             (ctx, .Async .ShowFailedToStart)] } ∧
    ∀ w1 : World, RunTask .ShowFailedToStart w1
      = { w1 with
          Trace := w1.Trace ++
            [(.MainThread, .AddNotification ⟨FailedToStartText, 5, .CS_Fail⟩)] } := by
  constructor
  · simp [StartExternalEditor, h, Async, World.Log]
  · intro w1
    rfl

/-- C7 at a host on which no process can be launched. -/
theorem StartExternalEditor_launch_fails_witness :
    ({ ExampleHost with Process := none } : Host).Process = none ∧
    (StartExternalEditor .MainThread { ExampleHost with Process := none }
        "/usr/bin/editor".toList DefaultParams ExamplePath ExampleOnCompleted
        (ExampleWorld "SEditableText".toList (some (.Text "old text".toList)))
      = some { ExampleWorld "SEditableText".toList (some (.Text "old text".toList)) with
          MainThreadTasks :=
            (ExampleWorld "SEditableText".toList (some (.Text "old text".toList))).MainThreadTasks
              ++ [.ShowFailedToStart]
          Trace :=
            (ExampleWorld "SEditableText".toList (some (.Text "old text".toList))).Trace ++
            [(.MainThread, .Launch "/usr/bin/editor".toList
                (StartExternalEditor.Params DefaultParams ExamplePath) false),
             (.MainThread, .Async .ShowFailedToStart)] } ∧
    ∀ w1 : World, RunTask .ShowFailedToStart w1
      = { w1 with
          Trace := w1.Trace ++
            [(.MainThread, .AddNotification ⟨FailedToStartText, 5, .CS_Fail⟩)] }) :=
  ⟨rfl,
    StartExternalEditor_launch_fails .MainThread { ExampleHost with Process := none }
      "/usr/bin/editor".toList DefaultParams ExamplePath ExampleOnCompleted
      (ExampleWorld "SEditableText".toList (some (.Text "old text".toList))) rfl⟩

/-! ## Execution contexts -/

theorem TraceExtends.refl (Q : ExecContext × Event → Prop) (w : World) : TraceExtends Q w w :=
  ⟨[], by simp, by simp⟩

theorem TraceExtends.trans {Q : ExecContext × Event → Prop} {w1 w2 w3 : World}
    (h12 : TraceExtends Q w1 w2) (h23 : TraceExtends Q w2 w3) : TraceExtends Q w1 w3 := by
  obtain ⟨n1, ht1, hq1⟩ := h12
  obtain ⟨n2, ht2, hq2⟩ := h23
  refine ⟨n1 ++ n2, by rw [ht2, ht1, List.append_assoc], ?_⟩
  intro x hx
  rcases List.mem_append.1 hx with hx | hx
  · exact hq1 x hx
  · exact hq2 x hx

theorem TraceExtends.of_Trace_eq {Q : ExecContext × Event → Prop} {w1 w2 w3 : World}
    (h12 : TraceExtends Q w1 w2) (h : w3.Trace = w2.Trace) : TraceExtends Q w1 w3 := by
  obtain ⟨n1, ht1, hq1⟩ := h12
  exact ⟨n1, by rw [h, ht1], hq1⟩

theorem TraceExtends.Log {Q : ExecContext × Event → Prop} (w : World) (ctx : ExecContext)
    (e : Event) (h : Q (ctx, e)) : TraceExtends Q w (w.Log ctx e) :=
  ⟨[(ctx, e)], rfl, by simpa using h⟩

theorem TraceExtends.NewEvents {Q : ExecContext × Event → Prop} {w1 w2 : World}
    (h : TraceExtends Q w1 w2) : ∀ x ∈ NewEvents w1 w2, Q x := by
  obtain ⟨new, ht, hq⟩ := h
  unfold ExternalEditTextInputs.NewEvents
  rw [ht, List.drop_left]
  exact hq

/-- The wait loop sleeps in the context it is called in. -/
theorem WaitLoop_TraceExtends (ctx : ExecContext) (n : Nat) :
    ∀ w : World, TraceExtends (IsSessionEvent ctx) w (WaitLoop ctx n w) := by
  induction n with
  | zero =>
    intro w
    exact TraceExtends.refl _ w
  | succ n ih =>
    intro w
    exact (TraceExtends.Log w ctx .Sleep (Or.inl rfl)).trans (ih _)

theorem StartExternalEditor_TraceExtends (ctx : ExecContext) (host : Host)
    (Binary ParamsFormat FilePath : FString) (cb : FOnCompleted) (w w2 : World)
    (h : StartExternalEditor ctx host Binary ParamsFormat FilePath cb w = some w2) :
    TraceExtends (IsSessionEvent ctx) w w2 := by
  unfold StartExternalEditor at h
  cases hp : host.Process with
  | none =>
    simp only [hp, Option.some.injEq] at h
    subst h
    exact ((TraceExtends.Log w ctx _ (Or.inl rfl)).trans
      (TraceExtends.Log _ ctx _ (Or.inl rfl))).of_Trace_eq rfl
  | some run =>
    cases hn : run.Polls with
    | none => simp [hp, hn] at h
    | some n =>
      simp only [hp, hn, Option.some.injEq] at h
      subst h
      have h1 := (TraceExtends.Log (Q := IsSessionEvent ctx) w ctx
        (.Launch Binary (StartExternalEditor.Params ParamsFormat FilePath) true)
        (Or.inl rfl)).trans (WaitLoop_TraceExtends ctx n _)
      have h2 : TraceExtends (IsSessionEvent ctx) w
          { WaitLoop ctx n
              (w.Log ctx (.Launch Binary (StartExternalEditor.Params ParamsFormat FilePath) true))
            with Files := run.Edit (WaitLoop ctx n
              (w.Log ctx
                (.Launch Binary (StartExternalEditor.Params ParamsFormat FilePath) true))).Files } :=
        h1.of_Trace_eq rfl
      exact (h2.trans (TraceExtends.Log _ .ProcessThread _
        (Or.inr ⟨rfl, _, _, _, rfl⟩))).of_Trace_eq rfl

theorem CreateExternalEditFile_TraceExtends (ctx : ExecContext) (host : Host)
    (Contents : FString) (w : World) :
    TraceExtends (IsSessionEvent ctx) w (CreateExternalEditFile ctx host Contents w).2 := by
  unfold CreateExternalEditFile
  split_ifs
  · exact (TraceExtends.Log w ctx _ (Or.inl rfl)).of_Trace_eq rfl
  · exact (TraceExtends.Log w ctx _ (Or.inl rfl)).trans (TraceExtends.Log _ ctx _ (Or.inl rfl))

theorem OpenExternalEditorForWidget_TraceExtends (Kind : WidgetType) (ctx : ExecContext)
    (host : Host) (Settings : UExternalEditTextInputsSettings) (Widget : WidgetId)
    (w w2 : World)
    (h : OpenExternalEditorForWidget Kind ctx host Settings Widget w = some w2) :
    TraceExtends (IsSessionEvent ctx) w w2 := by
  unfold OpenExternalEditorForWidget at h
  have hlog := TraceExtends.Log (Q := IsSessionEvent ctx) w ctx (.GetText Kind Widget) (Or.inl rfl)
  have hcreate := CreateExternalEditFile_TraceExtends ctx host (w.Widgets Widget).Text
    (w.Log ctx (.GetText Kind Widget))
  cases hc : CreateExternalEditFile ctx host (w.Widgets Widget).Text
      (w.Log ctx (.GetText Kind Widget)) with
  | mk r w1 =>
    rw [hc] at hcreate
    cases r with
    | none =>
      simp only [hc, Option.some.injEq] at h
      subst h
      exact hlog.trans hcreate
    | some FilePath =>
      simp only [hc] at h
      exact (hlog.trans hcreate).trans (StartExternalEditor_TraceExtends _ _ _ _ _ _ _ _ h)

/-- Every engine call of a returning invocation of the command handler is made in the
context of the invocation, but for the posting of the completion handler, which the
process thread makes. -/
theorem OpenInExternalEditor_TraceExtends (ctx : ExecContext) (host : Host)
    (Settings : UExternalEditTextInputsSettings) (w w2 : World)
    (h : OpenInExternalEditor ctx host Settings w = some w2) :
    TraceExtends (IsSessionEvent ctx) w w2 := by
  unfold OpenInExternalEditor at h
  have hfocus := TraceExtends.Log (Q := IsSessionEvent ctx) w ctx .GetUserFocusedWidget
    (Or.inl rfl)
  split_ifs at h with h0
  · simp only [Option.some.injEq] at h
    subst h
    exact TraceExtends.Log w ctx _ (Or.inl rfl)
  · cases hf : w.UserFocusedWidget with
    | none =>
      simp only [hf, Option.some.injEq] at h
      subst h
      exact hfocus.trans (TraceExtends.Log _ ctx _ (Or.inl rfl))
    | some Widget =>
      simp only [hf] at h
      split_ifs at h
      · exact hfocus.trans (OpenExternalEditorForWidget_TraceExtends _ _ _ _ _ _ _ h)
      · exact hfocus.trans (OpenExternalEditorForWidget_TraceExtends _ _ _ _ _ _ _ h)
      · exact hfocus.trans (OpenExternalEditorForWidget_TraceExtends _ _ _ _ _ _ _ h)
      · simp only [Option.some.injEq] at h
        subst h
        exact hfocus

/-- C10, as the claim states it, fails: in a session triggered on the main thread for a
focused `SEditableText`, the handler asks for the focused widget on the main thread and
the wait loop sleeps on the main thread; the only step made elsewhere is the posting of
the completion handler by the process thread. -/
theorem OpenInExternalEditor_waits_on_calling_thread :
    (OpenInExternalEditor .MainThread ExampleHost (ExampleSettings [])
        (ExampleWorld "SEditableText".toList none)).map
      (fun w2 => NewEvents (ExampleWorld "SEditableText".toList none) w2)
      = some
        [(.MainThread, .GetUserFocusedWidget),
         (.MainThread, .GetText .SEditableText 0),
         (.MainThread, .SaveStringToFile ExamplePath "old text".toList true),
         (.MainThread, .Launch "/usr/bin/editor".toList (Quote :: ExamplePath ++ [Quote]) true),
         (.MainThread, .Sleep),
         (.MainThread, .Sleep),
         (.ProcessThread, .Async (.CallOnCompleted ExampleOnCompleted 0 false))] := by
  decide

/-- C10, amended: in every session that returns, the polling loop of `StartExternalEditor`
sleeps in the execution context that invoked `OpenInExternalEditor`, the same context in
which the handler asks for the focused widget; the only step of the session made in
another context is the posting of the completion handler to the main thread, which the
process thread makes. -/
theorem OpenInExternalEditor_waits_in_calling_context (ctx : ExecContext) (host : Host)
    (Settings : UExternalEditTextInputsSettings) (w w2 : World)
    (h : OpenInExternalEditor ctx host Settings w = some w2) :
    (∀ c, (c, Event.Sleep) ∈ NewEvents w w2 → c = ctx) ∧
    (∀ c, (c, Event.GetUserFocusedWidget) ∈ NewEvents w w2 → c = ctx) ∧
    (∀ x ∈ NewEvents w w2, IsSessionEvent ctx x) := by
  have hall := (OpenInExternalEditor_TraceExtends ctx host Settings w w2 h).NewEvents
  refine ⟨?_, ?_, hall⟩
  · intro c hc
    rcases hall _ hc with h1 | ⟨-, _, _, _, h2⟩
    · exact h1
    · simp at h2
  · intro c hc
    rcases hall _ hc with h1 | ⟨-, _, _, _, h2⟩
    · exact h1
    · simp at h2

/-- C10, amended, at the session of `ExampleSessionWorld`: invoked on the main thread, the
handler returns after two sleeps of the main thread. -/
theorem OpenInExternalEditor_waits_in_calling_context_witness :
    OpenInExternalEditor .MainThread ExampleHost (ExampleSettings [])
        (ExampleWorld "SEditableText".toList none) = some ExampleSessionWorld ∧
    (.MainThread, Event.Sleep)
      ∈ NewEvents (ExampleWorld "SEditableText".toList none) ExampleSessionWorld ∧
    ((∀ c, (c, Event.Sleep)
          ∈ NewEvents (ExampleWorld "SEditableText".toList none) ExampleSessionWorld →
        c = .MainThread) ∧
      (∀ c, (c, Event.GetUserFocusedWidget)
          ∈ NewEvents (ExampleWorld "SEditableText".toList none) ExampleSessionWorld →
        c = .MainThread) ∧
      (∀ x ∈ NewEvents (ExampleWorld "SEditableText".toList none) ExampleSessionWorld,
        IsSessionEvent .MainThread x)) :=
  ⟨rfl, by decide,
    OpenInExternalEditor_waits_in_calling_context .MainThread ExampleHost (ExampleSettings [])
      (ExampleWorld "SEditableText".toList none) ExampleSessionWorld rfl⟩

/-! ## The whole session -/

theorem WaitLoop_Files (ctx : ExecContext) (n : Nat) :
    ∀ w : World, (WaitLoop ctx n w).Files = w.Files ∧ (WaitLoop ctx n w).Widgets = w.Widgets ∧
      (WaitLoop ctx n w).MainThreadTasks = w.MainThreadTasks := by
  induction n with
  | zero =>
    intro w
    exact ⟨rfl, rfl, rfl⟩
  | succ n ih =>
    intro w
    exact ih (w.Log ctx .Sleep)

/-- The round trip of a session in which the external program leaves the files alone: the
temporary file is written, the process is launched and exits, and the main thread then
runs the completion handler, which sets the text of the widget to its former text,
trimmed, and deletes the temporary file. -/
theorem OpenExternalEditorForWidget_round_trip (Kind : WidgetType) (ctx : ExecContext)
    (host : Host) (Settings : UExternalEditTextInputsSettings) (Widget : WidgetId) (w : World)
    (run : FProcessRun) (n : Nat) (hsave : host.bCanSave = true)
    (hp : host.Process = some run) (hn : run.Polls = some n) (hedit : ∀ fs, run.Edit fs = fs)
    (hq : w.MainThreadTasks = []) :
    ∃ w2, OpenExternalEditorForWidget Kind ctx host Settings Widget w = some w2 ∧
      ((RunMainThreadTasks w2).Widgets Widget).Text = TrimStartAndEnd (w.Widgets Widget).Text ∧
      (RunMainThreadTasks w2).Files
        (Combine host.ProjectSavedDir "ExternalTextEdit".toList host.NewGuid) = none := by
  refine ⟨_, by
    simp only [OpenExternalEditorForWidget, CreateExternalEditFile, hsave, StartExternalEditor,
      hp, hn, if_true]
    rfl, ?_⟩
  have hfiles := WaitLoop_Files ctx n
  simp only [RunMainThreadTasks, Async, World.Log, hedit, hfiles, hq, List.nil_append,
    List.foldl_cons, List.foldl_nil, RunTask]
  rw [OnCompleted_loaded _ _ _ _ _ (w.Widgets Widget).Text (by simp [LoadFileToString, hfiles])]
  simp [Delete, SetText, World.Log, hfiles]

end ExternalEditTextInputs
